import Mathlib

/-!
Shallow embedding of the `tello_tracking` repository: the PID controller
(`src/utils/pid.py`), the detection / offset / motion logic of the tracking
loop and the command-level state machine (`src/track_green_logo.py`), and the
HSV configuration loader (`load_hsv_config`).  Numeric values are modelled as
rationals (Python numbers), pixel coordinates as naturals or integers, and
side effects (actuator calls, printed messages) as explicit event lists.
-/

/-- PID controller state, from `src/utils/pid.py` (`PID.__init__`):
gains `kp, ki, kd` and the mutable fields `integral` and `prev_error`
(both zero at construction). -/
structure PIDState where
  kp : ℚ
  ki : ℚ
  kd : ℚ
  integral : ℚ
  prev_error : ℚ
deriving DecidableEq, Repr

/-- Truncation toward zero of a rational, the behaviour of Python's `int()`
on a numeric value. -/
def truncToInt (q : ℚ) : ℤ := if 0 ≤ q then ⌊q⌋ else ⌈q⌉

/-- The derivative term computed inside `PID.update` (src/utils/pid.py,
line 11): `(error - self.prev_error) / dt if dt > 0 else 0`. -/
def pidDerivative (s : PIDState) (error dt : ℚ) : ℚ :=
  if 0 < dt then (error - s.prev_error) / dt else 0

/-- `PID.update(error, dt)` from src/utils/pid.py lines 9-14:
`self.integral += error * dt`; derivative as in `pidDerivative`;
`output = self.kp*error + self.ki*self.integral + self.kd*derivative`;
`self.prev_error = error`; returns `int(max(min(output, 100), -100))`.
The result is the updated state paired with the returned integer. -/
def pidUpdate (s : PIDState) (error dt : ℚ) : PIDState × ℤ :=
  let integral := s.integral + error * dt
  let derivative := pidDerivative s error dt
  let output := s.kp * error + s.ki * integral + s.kd * derivative
  (PIDState.mk s.kp s.ki s.kd integral error,
   truncToInt (max (min output 100) (-100)))

/-- A freshly constructed `PID(kp, ki, kd)` (src/utils/pid.py lines 2-7). -/
def pidFresh (kp ki kd : ℚ) : PIDState := PIDState.mk kp ki kd 0 0

/-- The PID state after `n` repeated calls `update(error, dt)` on the same
instance. -/
def pidIter (s : PIDState) (error dt : ℚ) : ℕ → PIDState
  | 0 => s
  | n + 1 => (pidUpdate (pidIter s error dt n) error dt).1

theorem truncToInt_mono : Monotone truncToInt := by
  intro a b hab
  unfold truncToInt
  by_cases ha : 0 ≤ a
  · have hb : 0 ≤ b := le_trans ha hab
    simp only [ha, hb, if_pos]
    exact Int.floor_le_floor hab
  · by_cases hb : 0 ≤ b
    · simp only [ha, hb, if_pos, if_neg, not_false_iff]
      have h1 : ⌈a⌉ ≤ 0 := by
        rw [show ((0 : ℤ) : ℤ) = ((0 : ℤ)) from rfl, Int.ceil_le]
        exact_mod_cast le_of_lt (lt_of_not_le ha)
      have h2 : (0 : ℤ) ≤ ⌊b⌋ := by
        rw [Int.le_floor]
        exact_mod_cast hb
      omega
    · simp only [ha, hb, if_neg, not_false_iff]
      exact Int.ceil_le_ceil hab

theorem truncToInt_intCast (n : ℤ) : truncToInt (n : ℚ) = n := by
  unfold truncToInt
  split <;> simp

theorem truncToInt_clamp (q : ℚ) :
    truncToInt (max (min q 100) (-100)) =
      max (min (truncToInt q) 100) (-100) := by
  have h100 : truncToInt (100 : ℚ) = 100 := by
    have := truncToInt_intCast 100
    norm_num at this ⊢
    exact this
  have hm100 : truncToInt (-100 : ℚ) = -100 := by
    have := truncToInt_intCast (-100)
    norm_num at this ⊢
    exact this
  rcases le_total q (-100) with h | h
  · rw [min_eq_left (le_trans h (by norm_num)), max_eq_right h]
    have ht : truncToInt q ≤ -100 := hm100 ▸ truncToInt_mono h
    rw [hm100, min_eq_left (le_trans ht (by norm_num)), max_eq_right ht]
  · rcases le_total q 100 with h2 | h2
    · rw [min_eq_left h2, max_eq_left h]
      have ht1 : truncToInt q ≤ 100 := h100 ▸ truncToInt_mono h2
      have ht2 : -100 ≤ truncToInt q := hm100 ▸ truncToInt_mono h
      rw [min_eq_left ht1, max_eq_left ht2]
    · rw [min_eq_right h2, max_eq_left (by norm_num : (-100 : ℚ) ≤ 100)]
      have ht : 100 ≤ truncToInt q := h100 ▸ truncToInt_mono h2
      rw [h100, min_eq_right ht, max_eq_left (by omega)]

/-- Direction of a discrete Tello motion command, from the four movement
calls `move_left/right/up/down` in src/track_green_logo.py lines 172-180. -/
inductive Dir where
  | left
  | right
  | up
  | down
deriving DecidableEq, Repr

/-- A discrete motion command: a direction and a magnitude (the source
always passes the literal magnitude 20). -/
structure MotionCommand where
  dir : Dir
  magnitude : ℤ
deriving DecidableEq, Repr

/-- Horizontal branch of the tracking loop (src/track_green_logo.py lines
172-175): `if offset_x < -tolerance: move_left(20) elif offset_x >
tolerance: move_right(20)`, with no command otherwise. -/
def xCommand (ox tol : ℤ) : Option MotionCommand :=
  if ox < -tol then some (MotionCommand.mk Dir.left 20)
  else if ox > tol then some (MotionCommand.mk Dir.right 20)
  else none

/-- Vertical branch of the tracking loop (src/track_green_logo.py lines
177-180): `if offset_y > tolerance: move_up(20) elif offset_y < -tolerance:
move_down(20)`, with no command otherwise. -/
def yCommand (oy tol : ℤ) : Option MotionCommand :=
  if oy > tol then some (MotionCommand.mk Dir.up 20)
  else if oy < -tol then some (MotionCommand.mk Dir.down 20)
  else none

/-- Offset computation of src/track_green_logo.py lines 169-170:
`offset_x = center[0] - center_x`, `offset_y = center_y - center[1]`. -/
def computeOffset (center frameCenter : ℤ × ℤ) : ℤ × ℤ :=
  (center.1 - frameCenter.1, frameCenter.2 - center.2)

/-- One iteration of the tracking loop's actuation logic
(src/track_green_logo.py lines 166-180): given the detection result (if
any), the frame center and the tolerance, the motion commands issued this
iteration, horizontal branch first, as in the source. -/
def trackStep (center : Option (ℤ × ℤ)) (cx cy tol : ℤ) :
    List MotionCommand :=
  match center with
  | none => []
  | some c =>
      let off := computeOffset c (cx, cy)
      (xCommand off.1 tol).toList ++ (yCommand off.2 tol).toList

/-- The textual commands accepted by the command loop of `main`
(src/track_green_logo.py lines 142-207); `other` stands for any
unrecognised input. -/
inductive Cmd where
  | takeoff
  | start
  | land
  | exit
  | other
deriving DecidableEq, Repr

/-- Observable events of `main`: actuator calls (`takeoffCmd`, `landCmd`,
`streamOff`), entering the blocking tracking loop (`trackingLoopRun`,
which abstracts the whole inner `while tracking` loop including its own
window cleanup), closing the display windows during teardown
(`closeWindows`, the source guards `destroyAllWindows` on a window being
visible), and the printed user messages. -/
inductive Ev where
  | takeoffCmd
  | landCmd
  | trackingLoopRun
  | streamOff
  | closeWindows
  | msgTakeoffFirst
  | msgAlreadyFlying
  | msgNotFlying
  | msgUnknown
deriving DecidableEq, Repr

/-- Processing of one non-exit command by the command loop of `main`
(src/track_green_logo.py lines 144-207): the new value of the `flying`
flag and the events emitted.  `start` while not flying prints the
take-off-first message and `continue`s (lines 153-155); `start` while
flying enters the tracking loop (lines 156-193); `land` while flying
issues the actuator `land()` and clears `flying` (lines 196-198). -/
def stepCmd : Bool → Cmd → Bool × List Ev
  | false, Cmd.takeoff => (true, [Ev.takeoffCmd])
  | true, Cmd.takeoff => (true, [Ev.msgAlreadyFlying])
  | false, Cmd.start => (false, [Ev.msgTakeoffFirst])
  | true, Cmd.start => (true, [Ev.trackingLoopRun])
  | true, Cmd.land => (false, [Ev.landCmd])
  | false, Cmd.land => (false, [Ev.msgNotFlying])
  | f, Cmd.exit => (f, [])
  | f, Cmd.other => (f, [Ev.msgUnknown])

/-- The command loop of `main` (src/track_green_logo.py lines 140-207):
processes commands in order until an `exit` command (which breaks out) or
the input is exhausted; returns the final `flying` flag and the emitted
events. -/
def runCmds : Bool → List Cmd → Bool × List Ev
  | f, [] => (f, [])
  | f, c :: rest =>
      if c = Cmd.exit then (f, [])
      else
        let s := stepCmd f c
        let r := runCmds s.1 rest
        (r.1, s.2 ++ r.2)

/-- The `finally` block of `main` (src/track_green_logo.py lines 209-215):
if still flying, land; then `streamoff()`; then close the display
windows. -/
def teardown (flying : Bool) : List Ev :=
  (if flying then [Ev.landCmd] else []) ++ [Ev.streamOff, Ev.closeWindows]

/-- A whole session of `main`: the command loop starting with
`flying = False`, followed by the `finally` teardown (Python runs the
`finally` block on every exit path of the `try`). -/
def runMain (cmds : List Cmd) : List Ev :=
  let r := runCmds false cmds
  r.2 ++ teardown r.1

/-- A contiguous foreground region of a mask, given as its list of pixel
coordinates.  `cv2.findContours` is external OpenCV code; its output is
modelled as the list of contiguous foreground regions of the mask, in the
order found (row-major first-found). -/
abbrev Region : Type := List (ℕ × ℕ)

/-- Pixel area of a region: the number of distinct pixels it contains
(`cv2.contourArea` is external OpenCV code, modelled as the pixel area the
specification describes). -/
def rArea (r : Region) : ℕ := r.dedup.length

/-- Python's `max(contours, key=cv2.contourArea)` (src/track_green_logo.py
line 105): the first region of maximal area, `none` for an empty list
(the source guards with `if contours:`). -/
def maxByArea (contours : List Region) : Option Region :=
  match contours with
  | [] => none
  | c :: rest => some (rest.foldl (fun m x => if rArea m < rArea x then x else m) c)

/-- Minimum of a list of naturals, 0 for the empty list. -/
def listMin : List ℕ → ℕ
  | [] => 0
  | a :: as => as.foldl min a

/-- Maximum of a list of naturals, 0 for the empty list. -/
def listMax : List ℕ → ℕ
  | [] => 0
  | a :: as => as.foldl max a

/-- `cv2.boundingRect` (external OpenCV code) modelled on a pixel region:
`(x, y, w, h)` with `x, y` the minimal coordinates and `w, h` the extents. -/
def boundingRect (r : Region) : ℕ × ℕ × ℕ × ℕ :=
  let xs := List.map Prod.fst r
  let ys := List.map Prod.snd r
  (listMin xs, listMin ys, listMax xs - listMin xs + 1, listMax ys - listMin ys + 1)

/-- The center returned by `detect_object` (src/track_green_logo.py line
108): `(x + w // 2, y + h // 2)` of the bounding rectangle; `Nat` division
is Python's floor division `//` here. -/
def bbCenter (r : Region) : ℕ × ℕ :=
  let b := boundingRect r
  (b.1 + b.2.2.1 / 2, b.2.1 + b.2.2.2 / 2)

/-- `detect_object` (src/track_green_logo.py lines 104-109), after the
external mask computation: if the contour list is nonempty, take the
largest contour `c`; if its area exceeds 300 return the bounding-box
center, else return `None`. -/
def detect_object (contours : List Region) : Option (ℕ × ℕ) :=
  match maxByArea contours with
  | none => none
  | some c => if 300 < rArea c then some (bbCenter c) else none

/-- A JSON list of three channel values as stored under `"lower"` /
`"upper"` in `hsv_config.json`. -/
def HsvTriple : Type := List ℤ

/-- The result of trying to read and parse `hsv_config.json` (src lines
70-71): either opening/parsing raised (file missing or invalid JSON, the
only cases the `try` block catches), or it parsed to a value whose
`"lower"` / `"upper"` entries may each be present or absent (an absent
entry models a missing key, or a parsed value that is not an object). -/
inductive ConfigFile where
  | unreadable
  | parsed (lower upper : Option (List ℤ))
deriving DecidableEq, Repr

/-- User's menu choice in `load_hsv_config` (src lines 60-78). -/
inductive Choice where
  | one
  | two
  | three
  | four
  | invalid
deriving DecidableEq, Repr

/-- Outcome of `load_hsv_config`: the pair of bounds together with whether
a fallback warning was printed, or an uncaught exception (`crash`). -/
inductive LoadOutcome where
  | success (lower upper : List ℤ) (warned : Bool)
  | crash
deriving DecidableEq, Repr

/-- `COLOR_PRESETS["green"]["lower"]` (src/track_green_logo.py line 30). -/
def greenLower : List ℤ := [40, 70, 70]

/-- `COLOR_PRESETS["green"]["upper"]` (src/track_green_logo.py line 31). -/
def greenUpper : List ℤ := [80, 255, 255]

/-- `COLOR_PRESETS["red"]` bounds (src/track_green_logo.py lines 34-35). -/
def redLower : List ℤ := [0, 120, 70]

/-- Red upper bound (src/track_green_logo.py line 35). -/
def redUpper : List ℤ := [10, 255, 255]

/-- `COLOR_PRESETS["blue"]` bounds (src/track_green_logo.py lines 38-39). -/
def blueLower : List ℤ := [100, 150, 0]

/-- Blue upper bound (src/track_green_logo.py line 39). -/
def blueUpper : List ℤ := [140, 255, 255]

/-- The h/s/v range bounds of the data model: three integer channels with
`h` in `[0, 179]` and `s`, `v` in `[0, 255]`. -/
def hsvInRange (l : List ℤ) : Prop :=
  match l with
  | [h, s, v] => 0 ≤ h ∧ h ≤ 179 ∧ 0 ≤ s ∧ s ≤ 255 ∧ 0 ≤ v ∧ v ≤ 255
  | _ => False

instance (l : List ℤ) : Decidable (hsvInRange l) := by
  unfold hsvInRange
  split <;> infer_instance

/-- `load_hsv_config` (src/track_green_logo.py lines 47-82): presets for
choices 1-3, the config file for choice 4 (falling back to green with a
warning only when opening or parsing raises), green with a warning for any
other input.  The final `hsv["lower"]` / `hsv["upper"]` accesses on lines
80-81 are outside the `try` block: a parsed config missing either key
raises an uncaught exception, modelled as `crash`.  No range validation is
performed on a successfully parsed config. -/
def load_hsv_config (choice : Choice) (file : ConfigFile) : LoadOutcome :=
  match choice with
  | Choice.one => LoadOutcome.success greenLower greenUpper false
  | Choice.two => LoadOutcome.success redLower redUpper false
  | Choice.three => LoadOutcome.success blueLower blueUpper false
  | Choice.four =>
      match file with
      | ConfigFile.unreadable => LoadOutcome.success greenLower greenUpper true
      | ConfigFile.parsed lo hi =>
          match lo, hi with
          | some l, some u => LoadOutcome.success l u false
          | _, _ => LoadOutcome.crash
  | Choice.invalid => LoadOutcome.success greenLower greenUpper true

theorem pidUpdate_fst (s : PIDState) (error dt : ℚ) :
    (pidUpdate s error dt).1 =
      PIDState.mk s.kp s.ki s.kd (s.integral + error * dt) error := rfl

theorem pidUpdate_snd (s : PIDState) (error dt : ℚ) :
    (pidUpdate s error dt).2 =
      truncToInt (max (min (s.kp * error + s.ki * (s.integral + error * dt) +
        s.kd * pidDerivative s error dt) 100) (-100)) := rfl

/-- C1: for every PID instance and every call `update(error, dt)` with
`dt >= 0`, the integral state becomes `integral + error*dt`, the
derivative is `(error - prev_error)/dt` when `dt > 0` and `0` when
`dt == 0`, `prev_error` is set to `error`, and the returned value is
`kp*error + ki*integral + kd*derivative` truncated toward zero and
clamped to `[-100, 100]` (an integer in that range for every input). -/
theorem c1_pid_update_correct (s : PIDState) (error dt : ℚ) (_hdt : 0 ≤ dt) :
    (pidUpdate s error dt).1.integral = s.integral + error * dt ∧
    (pidUpdate s error dt).1.prev_error = error ∧
    (0 < dt → pidDerivative s error dt = (error - s.prev_error) / dt) ∧
    (dt = 0 → pidDerivative s error dt = 0) ∧
    (pidUpdate s error dt).2 =
      max (min (truncToInt (s.kp * error + s.ki * (s.integral + error * dt) +
        s.kd * pidDerivative s error dt)) 100) (-100) ∧
    -100 ≤ (pidUpdate s error dt).2 ∧ (pidUpdate s error dt).2 ≤ 100 := by
  have hsnd := pidUpdate_snd s error dt
  have hclamp := truncToInt_clamp (s.kp * error + s.ki * (s.integral + error * dt) +
    s.kd * pidDerivative s error dt)
  refine ⟨rfl, rfl, ?_, ?_, ?_, ?_, ?_⟩
  · intro h
    unfold pidDerivative
    rw [if_pos h]
  · intro h
    unfold pidDerivative
    rw [if_neg (by rw [h]; exact lt_irrefl 0)]
  · rw [hsnd, hclamp]
  · rw [hsnd, hclamp]
    exact le_max_right _ _
  · rw [hsnd, hclamp]
    exact max_le (le_trans (min_le_right _ _) le_rfl) (by norm_num)

/-- Witness for C1 at a concrete instance and call. -/
theorem c1_pid_update_witness :
    (pidUpdate (pidFresh 1 1 1) 3 1).1.prev_error = 3 :=
  (c1_pid_update_correct (pidFresh 1 1 1) 3 1 (by norm_num)).2.1

/-- C10: frame property of `PID.update`: the gain fields `kp`, `ki`, `kd`
are unchanged by every call; the updated state differs from the old one
only in the `integral` and `prev_error` fields. -/
theorem c10_pid_update_frame (s : PIDState) (error dt : ℚ) :
    (pidUpdate s error dt).1.kp = s.kp ∧
    (pidUpdate s error dt).1.ki = s.ki ∧
    (pidUpdate s error dt).1.kd = s.kd ∧
    (pidUpdate s error dt).1 =
      PIDState.mk s.kp s.ki s.kd (s.integral + error * dt) error :=
  ⟨rfl, rfl, rfl, rfl⟩

/-- C5: the offset is `dx = center.x - frame_center.x` and
`dy = frame_center.y - center.y`; center equal to frame center gives
`(0, 0)`, and center `(0, 0)` with frame center `(cx, cy)` gives
`(-cx, cy)`. -/
theorem c5_offset_computation (center frameCenter : ℤ × ℤ) :
    computeOffset center frameCenter =
      (center.1 - frameCenter.1, frameCenter.2 - center.2) ∧
    computeOffset frameCenter frameCenter = (0, 0) ∧
    computeOffset (0, 0) frameCenter = (-frameCenter.1, frameCenter.2) := by
  refine ⟨rfl, ?_, ?_⟩ <;> simp [computeOffset]

theorem pidIter_ki_state (n : ℕ) :
    (pidIter (pidFresh 0 1 0) 10 1 n).kp = 0 ∧
    (pidIter (pidFresh 0 1 0) 10 1 n).ki = 1 ∧
    (pidIter (pidFresh 0 1 0) 10 1 n).kd = 0 ∧
    (pidIter (pidFresh 0 1 0) 10 1 n).integral = 10 * n := by
  induction n with
  | zero => exact ⟨rfl, rfl, rfl, by simp [pidIter, pidFresh]⟩
  | succ k ih =>
      obtain ⟨h1, h2, h3, h4⟩ := ih
      refine ⟨?_, ?_, ?_, ?_⟩
      · rw [pidIter, pidUpdate_fst]
        exact h1
      · rw [pidIter, pidUpdate_fst]
        exact h2
      · rw [pidIter, pidUpdate_fst]
        exact h3
      · rw [pidIter, pidUpdate_fst]
        show (pidIter (pidFresh 0 1 0) 10 1 k).integral + 10 * 1 = 10 * (k + 1 : ℕ)
        rw [h4]
        push_cast
        ring

/-- C6: PID accumulation round-trip: a fresh `PID(1, 0, 0)` returns `50`
on `update(50, 1)`; on a fresh `PID(0, 1, 0)`, the `(n+1)`-th of repeated
calls `update(10, 1)` returns `min(10*(n+1), 100)` — `10`, then `20`, …,
clamping at `100` after sufficient repetitions. -/
theorem c6_pid_roundtrip :
    (pidUpdate (pidFresh 1 0 0) 50 1).2 = 50 ∧
    ∀ n : ℕ, (pidUpdate (pidIter (pidFresh 0 1 0) 10 1 n) 10 1).2 =
      min (10 * ((n : ℤ) + 1)) 100 := by
  constructor
  · rw [pidUpdate_snd]
    have h50 : (pidFresh 1 0 0).kp * 50 +
        (pidFresh 1 0 0).ki * ((pidFresh 1 0 0).integral + 50 * 1) +
        (pidFresh 1 0 0).kd * pidDerivative (pidFresh 1 0 0) 50 1 =
        ((50 : ℤ) : ℚ) := by
      show (1 : ℚ) * 50 + 0 * (0 + 50 * 1) + 0 * _ = _
      push_cast
      ring
    rw [h50, truncToInt_clamp, truncToInt_intCast]
    decide
  · intro n
    obtain ⟨h1, h2, h3, h4⟩ := pidIter_ki_state n
    rw [pidUpdate_snd]
    have hout : (pidIter (pidFresh 0 1 0) 10 1 n).kp * 10 +
        (pidIter (pidFresh 0 1 0) 10 1 n).ki *
          ((pidIter (pidFresh 0 1 0) 10 1 n).integral + 10 * 1) +
        (pidIter (pidFresh 0 1 0) 10 1 n).kd *
          pidDerivative (pidIter (pidFresh 0 1 0) 10 1 n) 10 1 =
        ((10 * (n : ℤ) + 10 : ℤ) : ℚ) := by
      rw [h1, h2, h3, h4]
      push_cast
      ring
    rw [hout, truncToInt_clamp, truncToInt_intCast]
    omega

theorem trackStep_some (c : ℤ × ℤ) (cx cy tol : ℤ) :
    trackStep (some c) cx cy tol =
      (xCommand (c.1 - cx) tol).toList ++ (yCommand (cy - c.2) tol).toList := rfl

/-- C4: dead-zone: for each axis, if the absolute offset on that axis is
at most the tolerance, no motion command is issued on that axis in that
tracking-loop iteration (the axis contributes nothing to actuation,
regardless of any PID gains, since the loop's actuation depends only on
the offsets). -/
theorem c4_dead_zone (c : ℤ × ℤ) (cx cy tol : ℤ) :
    (|c.1 - cx| ≤ tol →
      xCommand (c.1 - cx) tol = none ∧
      ∀ mc ∈ trackStep (some c) cx cy tol,
        mc.dir ≠ Dir.left ∧ mc.dir ≠ Dir.right) ∧
    (|cy - c.2| ≤ tol →
      yCommand (cy - c.2) tol = none ∧
      ∀ mc ∈ trackStep (some c) cx cy tol,
        mc.dir ≠ Dir.up ∧ mc.dir ≠ Dir.down) := by
  constructor
  · intro h
    rw [abs_le] at h
    have hx : xCommand (c.1 - cx) tol = none := by
      unfold xCommand
      rw [if_neg (by omega), if_neg (by omega)]
    refine ⟨hx, ?_⟩
    intro mc hmc
    rw [trackStep_some, hx] at hmc
    simp only [Option.toList_none, List.nil_append] at hmc
    unfold yCommand at hmc
    split_ifs at hmc <;> simp at hmc <;> rw [hmc] <;> exact ⟨by simp, by simp⟩
  · intro h
    rw [abs_le] at h
    have hy : yCommand (cy - c.2) tol = none := by
      unfold yCommand
      rw [if_neg (by omega), if_neg (by omega)]
    refine ⟨hy, ?_⟩
    intro mc hmc
    rw [trackStep_some, hy] at hmc
    simp only [Option.toList_none, List.append_nil] at hmc
    unfold xCommand at hmc
    split_ifs at hmc <;> simp at hmc <;> rw [hmc] <;> exact ⟨by simp, by simp⟩

/-- Witness for C4 at a centered detection. -/
theorem c4_dead_zone_witness :
    xCommand ((320 : ℤ) - 320) 40 = none :=
  ((c4_dead_zone (320, 240) 320 240 40).1 (by decide)).1

/-- C2 counterexample: at a concrete tracking-loop iteration (detection
center `(500, 100)`, frame center `(320, 240)`, tolerance 40, both offsets
beyond tolerance), the loop emits commands of magnitude 20, whereas the
PID update the claim mandates for the x axis (a unit-proportional
controller at error 180, first-iteration `dt = 0`) outputs 100: the
emitted magnitude does not equal the PID output's absolute value, so the
PID controller is not the source of actuation magnitude. -/
theorem c2_pid_actuation_counterexample :
    trackStep (some (500, 100)) 320 240 40 =
      [MotionCommand.mk Dir.right 20, MotionCommand.mk Dir.up 20] ∧
    (pidUpdate (pidFresh 1 0 0) (500 - 320) 0).2 = 100 ∧
    ¬ (20 : ℤ) = |(pidUpdate (pidFresh 1 0 0) (500 - 320) 0).2| := by
  have hpid : (pidUpdate (pidFresh 1 0 0) (500 - 320) 0).2 = 100 := by
    rw [pidUpdate_snd]
    have h : (pidFresh 1 0 0).kp * (500 - 320) +
        (pidFresh 1 0 0).ki * ((pidFresh 1 0 0).integral + (500 - 320) * 0) +
        (pidFresh 1 0 0).kd * pidDerivative (pidFresh 1 0 0) (500 - 320) 0 =
        ((180 : ℤ) : ℚ) := by
      show (1 : ℚ) * (500 - 320) + 0 * (0 + (500 - 320) * 0) + 0 * _ = _
      push_cast
      ring
    rw [h, truncToInt_clamp, truncToInt_intCast]
    decide
  refine ⟨by decide, hpid, ?_⟩
  rw [hpid]
  decide

/-- C2 amended: the source tracking loop never invokes the PID controller;
when an axis offset exceeds the tolerance it emits a fixed-magnitude-20
command whose direction follows the sign mapping (x: negative→left,
positive→right; y: positive→up, negative→down), and every command the
loop ever emits has magnitude exactly 20. -/
theorem c2_amended_bang_bang (c : ℤ × ℤ) (cx cy tol : ℤ) (htol : 0 ≤ tol) :
    (c.1 - cx < -tol →
      xCommand (c.1 - cx) tol = some (MotionCommand.mk Dir.left 20)) ∧
    (tol < c.1 - cx →
      xCommand (c.1 - cx) tol = some (MotionCommand.mk Dir.right 20)) ∧
    (tol < cy - c.2 →
      yCommand (cy - c.2) tol = some (MotionCommand.mk Dir.up 20)) ∧
    (cy - c.2 < -tol →
      yCommand (cy - c.2) tol = some (MotionCommand.mk Dir.down 20)) ∧
    ∀ mc ∈ trackStep (some c) cx cy tol, mc.magnitude = 20 := by
  refine ⟨?_, ?_, ?_, ?_, ?_⟩
  · intro h
    unfold xCommand
    rw [if_pos h]
  · intro h
    unfold xCommand
    rw [if_neg (by omega), if_pos (by omega)]
  · intro h
    unfold yCommand
    rw [if_pos h]
  · intro h
    unfold yCommand
    rw [if_neg (by omega), if_pos (by omega)]
  · intro mc hmc
    rw [trackStep_some] at hmc
    rcases List.mem_append.mp hmc with hx | hy
    · unfold xCommand at hx
      split_ifs at hx <;> simp at hx <;> rw [hx]
    · unfold yCommand at hy
      split_ifs at hy <;> simp at hy <;> rw [hy]

/-- Witness for the amended C2 at a concrete offset beyond tolerance. -/
theorem c2_amended_bang_bang_witness :
    xCommand ((500 : ℤ) - 320) 40 = some (MotionCommand.mk Dir.right 20) :=
  (c2_amended_bang_bang (500, 100) 320 240 40 (by decide)).2.1 (by decide)

theorem foldl_maxArea_mem (c : Region) (rest : List Region) :
    rest.foldl (fun m x => if rArea m < rArea x then x else m) c ∈ c :: rest := by
  induction rest generalizing c with
  | nil => simp
  | cons a as ih =>
      simp only [List.foldl_cons]
      by_cases h : rArea c < rArea a
      · rw [if_pos h]
        exact List.mem_cons_of_mem c (ih a)
      · rw [if_neg h]
        rcases List.mem_cons.mp (ih c) with h' | h'
        · rw [h']
          exact List.mem_cons_self c (a :: as)
        · exact List.mem_cons_of_mem c (List.mem_cons_of_mem a h')

theorem foldl_maxArea_le (c : Region) (rest : List Region) :
    ∀ d ∈ c :: rest,
      rArea d ≤ rArea (rest.foldl (fun m x => if rArea m < rArea x then x else m) c) := by
  induction rest generalizing c with
  | nil =>
      intro d hd
      simp at hd
      rw [hd]
      simp
  | cons a as ih =>
      intro d hd
      simp only [List.foldl_cons]
      by_cases h : rArea c < rArea a
      · rw [if_pos h]
        rcases List.mem_cons.mp hd with rfl | hd'
        · exact le_trans (le_of_lt h) (ih a a (List.mem_cons_self a as))
        · exact ih a d hd'
      · rw [if_neg h]
        rcases List.mem_cons.mp hd with rfl | hd'
        · exact ih d d (List.mem_cons_self d as)
        · rcases List.mem_cons.mp hd' with rfl | hd''
          · exact le_trans (not_lt.mp h) (ih c c (List.mem_cons_self c as))
          · exact ih c d (List.mem_cons_of_mem c hd'')

/-- C3: `detect_object` selects the foreground region of maximum pixel
area (ties broken by first-found), returns a detection exactly when that
region's area strictly exceeds 300, with the integer-truncated
bounding-box centroid as center, and returns `none` when there is no
foreground region at all. -/
theorem c3_detect_largest (contours : List Region) :
    (maxByArea contours = none ↔ contours = []) ∧
    (contours = [] → detect_object contours = none) ∧
    ∀ m, maxByArea contours = some m →
      m ∈ contours ∧ (∀ c ∈ contours, rArea c ≤ rArea m) ∧
      detect_object contours = if 300 < rArea m then some (bbCenter m) else none := by
  cases contours with
  | nil =>
      refine ⟨by simp [maxByArea], fun _ => rfl, ?_⟩
      intro m hm
      simp [maxByArea] at hm
  | cons c rest =>
      refine ⟨by simp [maxByArea], fun h => absurd h (by simp), ?_⟩
      intro m hm
      have hm' : rest.foldl (fun m x => if rArea m < rArea x then x else m) c = m :=
        Option.some.inj hm
      subst hm'
      exact ⟨foldl_maxArea_mem c rest, foldl_maxArea_le c rest, rfl⟩

/-- Witness for C3 at a concrete two-region contour list whose largest
region (area 2) does not exceed the 300-pixel threshold. -/
theorem c3_detect_largest_witness :
    detect_object [[(0, 0)], [(1, 1), (1, 2)]] = none := by
  have h := ((c3_detect_largest [[(0, 0)], [(1, 1), (1, 2)]]).2.2
    [(1, 1), (1, 2)] (by decide)).2.2
  rw [if_neg (by decide)] at h
  exact h

theorem runCmds_no_takeoff (cmds : List Cmd) :
    Cmd.takeoff ∉ cmds →
      (runCmds false cmds).1 = false ∧
      Ev.trackingLoopRun ∉ (runCmds false cmds).2 := by
  induction cmds with
  | nil => intro _; simp [runCmds]
  | cons c rest ih =>
      intro h
      have hc : c ≠ Cmd.takeoff := fun hc => h (hc ▸ List.mem_cons_self c rest)
      have hr : Cmd.takeoff ∉ rest := fun hr => h (List.mem_cons_of_mem c hr)
      obtain ⟨ih1, ih2⟩ := ih hr
      cases c with
      | takeoff => exact absurd rfl hc
      | start => simpa [runCmds, stepCmd, ih1] using ih2
      | land => simpa [runCmds, stepCmd, ih1] using ih2
      | exit => simp [runCmds]
      | other => simpa [runCmds, stepCmd, ih1] using ih2

/-- C7: a `start` command issued while not flying is rejected with the
take-off-first message, causes no state change, and — for any whole
session whose input contains no `takeoff` — the tracking loop is never
invoked. -/
theorem c7_start_before_takeoff (cmds : List Cmd)
    (h : Cmd.takeoff ∉ cmds) :
    stepCmd false Cmd.start = (false, [Ev.msgTakeoffFirst]) ∧
    Ev.trackingLoopRun ∉ runMain cmds := by
  refine ⟨rfl, ?_⟩
  obtain ⟨h1, h2⟩ := runCmds_no_takeoff cmds h
  unfold runMain
  intro hmem
  rcases List.mem_append.mp hmem with hb | ht
  · exact h2 hb
  · rw [h1] at ht
    simp [teardown] at ht

/-- Witness for C7 on a concrete session without a takeoff. -/
theorem c7_start_before_takeoff_witness :
    stepCmd false Cmd.start = (false, [Ev.msgTakeoffFirst]) ∧
    Ev.trackingLoopRun ∉ runMain [Cmd.start, Cmd.land] :=
  c7_start_before_takeoff [Cmd.start, Cmd.land] (by decide)

theorem runCmds_no_teardown_events (cmds : List Cmd) :
    ∀ f : Bool, Ev.streamOff ∉ (runCmds f cmds).2 ∧
      Ev.closeWindows ∉ (runCmds f cmds).2 := by
  induction cmds with
  | nil => intro f; simp [runCmds]
  | cons c rest ih =>
      intro f
      cases c <;> cases f <;>
        simp [runCmds, stepCmd] <;>
        exact ih _

/-- C8: on every (normal) exit path of the command loop the teardown runs
exactly once and at the end, in order: a land command first when still
flying, then the stream release, then the display close; and the concrete
command sequence `[start, takeoff, start, land, exit]` produces exactly
one `land()` actuator call, which happens before teardown. -/
theorem c8_teardown_once :
    (∀ cmds : List Cmd,
      (runMain cmds).count Ev.streamOff = 1 ∧
      (runMain cmds).count Ev.closeWindows = 1 ∧
      ∃ body : List Ev, Ev.streamOff ∉ body ∧ Ev.closeWindows ∉ body ∧
        (runMain cmds = body ++ [Ev.landCmd, Ev.streamOff, Ev.closeWindows] ∨
         runMain cmds = body ++ [Ev.streamOff, Ev.closeWindows])) ∧
    (runMain [Cmd.start, Cmd.takeoff, Cmd.start, Cmd.land, Cmd.exit]).count
      Ev.landCmd = 1 ∧
    runMain [Cmd.start, Cmd.takeoff, Cmd.start, Cmd.land, Cmd.exit] =
      [Ev.msgTakeoffFirst, Ev.takeoffCmd, Ev.trackingLoopRun, Ev.landCmd,
       Ev.streamOff, Ev.closeWindows] := by
  refine ⟨?_, by decide, by decide⟩
  intro cmds
  obtain ⟨hs, hc⟩ := runCmds_no_teardown_events cmds false
  refine ⟨?_, ?_, (runCmds false cmds).2, hs, hc, ?_⟩
  · unfold runMain
    rw [List.count_append, List.count_eq_zero.mpr hs]
    cases hb : (runCmds false cmds).1 <;> simp [teardown]
  · unfold runMain
    rw [List.count_append, List.count_eq_zero.mpr hc]
    cases hb : (runCmds false cmds).1 <;> simp [teardown]
  · have key : runMain cmds = (runCmds false cmds).2 ++
        ((if (runCmds false cmds).1 = true then [Ev.landCmd] else []) ++
         [Ev.streamOff, Ev.closeWindows]) := rfl
    cases hb : (runCmds false cmds).1
    · right
      rw [key, hb]
      rfl
    · left
      rw [key, hb]
      rfl

/-- C9 counterexample: a syntactically valid `hsv_config.json` carrying
out-of-range channel values is accepted verbatim — no fallback to the
green preset and no warning — and a syntactically valid config missing
the `"lower"` / `"upper"` keys crashes the session (the key accesses are
outside the `try` block), refuting both the always-fallback and the
never-crash parts of the claim. -/
theorem c9_loader_counterexample :
    load_hsv_config Choice.four
        (ConfigFile.parsed (some [200, 300, 300]) (some [250, 355, 355])) =
      LoadOutcome.success [200, 300, 300] [250, 355, 355] false ∧
    ¬ hsvInRange [200, 300, 300] ∧
    ¬ [200, 300, 300] = greenLower ∧
    load_hsv_config Choice.four (ConfigFile.parsed none none) =
      LoadOutcome.crash :=
  ⟨rfl, by decide, by decide, rfl⟩

/-- C9 amended: the loader falls back to the documented green preset with
a warning only when opening or parsing `hsv_config.json` raises; the
preset choices (and invalid menu input) always yield in-range values; a
successfully parsed config is used verbatim with no range validation; and
a parsed config missing the `lower` or `upper` key raises an uncaught
exception. -/
theorem c9_amended_loader (file : ConfigFile) (lo hi : List ℤ) :
    load_hsv_config Choice.one file =
      LoadOutcome.success greenLower greenUpper false ∧
    load_hsv_config Choice.two file =
      LoadOutcome.success redLower redUpper false ∧
    load_hsv_config Choice.three file =
      LoadOutcome.success blueLower blueUpper false ∧
    load_hsv_config Choice.invalid file =
      LoadOutcome.success greenLower greenUpper true ∧
    (hsvInRange greenLower ∧ hsvInRange greenUpper ∧
     hsvInRange redLower ∧ hsvInRange redUpper ∧
     hsvInRange blueLower ∧ hsvInRange blueUpper) ∧
    load_hsv_config Choice.four ConfigFile.unreadable =
      LoadOutcome.success greenLower greenUpper true ∧
    load_hsv_config Choice.four (ConfigFile.parsed (some lo) (some hi)) =
      LoadOutcome.success lo hi false ∧
    load_hsv_config Choice.four (ConfigFile.parsed none (some hi)) =
      LoadOutcome.crash ∧
    load_hsv_config Choice.four (ConfigFile.parsed (some lo) none) =
      LoadOutcome.crash ∧
    load_hsv_config Choice.four (ConfigFile.parsed none none) =
      LoadOutcome.crash :=
  ⟨rfl, rfl, rfl, rfl, by decide, rfl, rfl, rfl, rfl, rfl⟩
